import Mathlib

/-!
Verification development for the Line_Util_React optimizer core.

The Python sources (`Optimizer/optimizer.py`, `Optimizer/changeover/*`) are
embedded shallowly over exact rationals: Python floats become `ℚ`, so all
arithmetic is exact except where the code itself calls `round(x, n)`, which is
modelled by `round2` / `round4` / `round6` below.  Code paths that can raise a
Python exception (`ZeroDivisionError`, `KeyError`, `NotImplementedError`, or
any exception escaping a strategy) are modelled with `Option` / `Except`:
`none` / `.error` marks a raised exception, `some` / `.ok` a normal return.
-/

/-- Model of Python `round(x, 2)` over exact rationals.  (`round` here rounds
half up while CPython rounds floats to the nearest representable value of the
2-decimal result; no statement below sits on a tie, where the two differ.) -/
def round2 (x : ℚ) : ℚ := (round (100 * x) : ℤ) / 100

/-- Model of Python `round(x, 4)`. -/
def round4 (x : ℚ) : ℚ := (round (10000 * x) : ℤ) / 10000

/-- Model of Python `round(x, 6)`. -/
def round6 (x : ℚ) : ℚ := (round (1000000 * x) : ℤ) / 1000000

/-- The `ModelAssignment` dataclass of `Optimizer/optimizer.py`. -/
structure ModelAssignment where
  modelId : String
  modelName : String
  allocatedUnitsDaily : ℚ
  demandUnitsDaily : ℚ
  timeRequiredSeconds : ℚ
  cycleTime : ℚ
  efficiency : ℚ
  priority : Int
  fulfillmentPercent : ℚ
deriving DecidableEq, Repr

/-- The `ProductionLine` dataclass of `Optimizer/optimizer.py`. -/
structure ProductionLine where
  id : String
  name : String
  area : String
  lineType : String
  timeAvailableDaily : ℚ
  timeUsedDaily : ℚ
  assignments : List ModelAssignment
deriving DecidableEq, Repr

/-- The `ProductionLine.utilizationPercent` property. -/
def ProductionLine.utilizationPercent (l : ProductionLine) : ℚ :=
  if l.timeAvailableDaily = 0 then 0 else l.timeUsedDaily / l.timeAvailableDaily * 100

/-- The assignment record constructed at the end of `ProductionLine.add_model`
(optimizer.py 120-130); the stored numeric fields go through `round(_, 2)`. -/
def mkAssignment (mid mname : String) (alloc d ct eff : ℚ) (p : Int) : ModelAssignment :=
  { modelId := mid
    modelName := mname
    allocatedUnitsDaily := round2 alloc
    demandUnitsDaily := round2 d
    timeRequiredSeconds := round2 (alloc * (ct / (eff / 100)))
    cycleTime := ct
    efficiency := eff
    priority := p
    fulfillmentPercent := round2 (if 0 < d then alloc / d * 100 else 100) }

/-- `ProductionLine.add_model` (optimizer.py 80-133).  `none` models the
`ZeroDivisionError` raised by `cycle_time / (efficiency / 100.0)` when the
divisor is zero, or by `available_time / adjusted_cycle_time` when the
adjusted cycle time is zero; both divisions happen exactly where they do in
the source, so a zero efficiency raises before the capacity guard runs. -/
def ProductionLine.add_model (l : ProductionLine) (mid mname : String)
    (d ct eff : ℚ) (p : Int) : Option (ℚ × ProductionLine) :=
  if eff / 100 = 0 then none
  else
    let adj := ct / (eff / 100)
    let avail := l.timeAvailableDaily - l.timeUsedDaily
    if avail ≤ 0 then some (0, l)
    else if adj = 0 then none
    else
      let alloc := min (avail / adj) d
      if alloc ≤ 0 then some (0, l)
      else
        some (alloc,
          { l with
            timeUsedDaily := l.timeUsedDaily + alloc * adj
            assignments := l.assignments ++ [mkAssignment mid mname alloc d ct eff p] })

/-- Compatibility record: the dictionaries appended to `area_compatibilities`
in `run_optimization_for_year` (optimizer.py 358-365). -/
structure Compat where
  lineId : String
  modelId : String
  modelName : String
  cycleTime : ℚ
  efficiency : ℚ
  priority : Int
deriving DecidableEq, Repr

/-- `get_compatibilities_by_line` (optimizer.py 167-183): group the input
records by line, keeping input order, then sort each group by priority with a
stable sort (Python `list.sort` is stable; `List.insertionSort` is too). -/
def get_compatibilities_by_line (compats : List Compat) : String → List Compat :=
  fun lid =>
    List.insertionSort (fun a b => a.priority ≤ b.priority)
      (compats.filter (fun c => c.lineId = lid))

/-- Mutable state of one `(area, year)` allocation pass: the `lines` dict and
the `remaining_demand_in_area` pool; `remaining_demand_in_area.get(m, 0)` is
modelled by a total function defaulting to `0`. -/
structure AllocState where
  lines : List ProductionLine
  pool : String → ℚ

/-- Lookup `lines[line_id]`; `none` would be a `KeyError`. -/
def findLine (lines : List ProductionLine) (lid : String) : Option ProductionLine :=
  lines.find? (fun l => l.id = lid)

/-- Write back the in-place mutation of `lines[line_id]` by `add_model`. -/
def updateLine (lines : List ProductionLine) (l' : ProductionLine) : List ProductionLine :=
  lines.map (fun l => if l.id = l'.id then l' else l)

/-- Inner loop of a tier (`for compat in compatible_lines`, optimizer.py
408-437): fetch the line, break once the model's remaining demand is ≤ 0,
call `add_model` with the current remaining demand, and subtract whatever the
call returned (only when it returned > 0). -/
def distributeModel (m : String) : List Compat → AllocState → Option AllocState
  | [], st => some st
  | c :: cs, st =>
    match findLine st.lines c.lineId with
    | none => none
    | some line =>
      if st.pool m ≤ 0 then some st
      else
        match line.add_model m c.modelName (st.pool m) c.cycleTime c.efficiency c.priority with
        | none => none
        | some (r, line') =>
          distributeModel m cs
            { lines := updateLine st.lines line'
              pool := if 0 < r then Function.update st.pool m (st.pool m - r) else st.pool }

/-- First-occurrence key order of a Python dict built by repeated insertion. -/
def keysAux (seen : List String) : List String → List String
  | [] => []
  | x :: xs => if seen.contains x then keysAux seen xs else x :: keysAux (x :: seen) xs

/-- Build `models_at_priority` (optimizer.py 388-393): group a tier's records
by model, keys in first-appearance order, each group keeping input order. -/
def groupByModel (cs : List Compat) : List (String × List Compat) :=
  (keysAux [] (cs.map (fun c => c.modelId))).map
    (fun m => (m, cs.filter (fun c => c.modelId = m)))

/-- Middle loop (`for model_id, compatible_lines in ...`, optimizer.py
396-404): a model whose remaining demand is ≤ 0 is skipped (`continue`). -/
def processModels : List (String × List Compat) → AllocState → Option AllocState
  | [], st => some st
  | g :: gs, st =>
    if st.pool g.1 ≤ 0 then processModels gs st
    else
      match distributeModel g.1 g.2 st with
      | none => none
      | some st' => processModels gs st'

/-- Outer loop over ascending priority tiers (optimizer.py 381-437). -/
def processPriorities : List Int → List Compat → AllocState → Option AllocState
  | [], _, st => some st
  | p :: ps, compats, st =>
    match processModels (groupByModel (compats.filter (fun c => c.priority = p))) st with
    | none => none
    | some st' => processPriorities ps compats st'

/-- Step 1 of the area pass (optimizer.py 350-366): collect the area's
compatibility records, keeping only models that have a volume for the year,
and stamping the area line's id on each record. -/
def buildAreaCompats (areaLines : List ProductionLine) (cbl : String → List Compat)
    (vols : String → Option ℚ) : List Compat :=
  areaLines.flatMap (fun l =>
    ((cbl l.id).filter (fun c => (vols c.modelId).isSome)).map
      (fun c => { c with lineId := l.id }))

/-- Pool seeding (optimizer.py 368-372): only models with at least one
compatibility record in this area get an entry, at full daily demand. -/
def seedPool (areaCompats : List Compat) (vols : String → Option ℚ) : String → ℚ :=
  fun m => if areaCompats.any (fun c => c.modelId = m) then (vols m).getD 0 else 0

/-- Distinct priority levels, ascending (`sorted(set(...))`, optimizer.py 377). -/
def priorityLevels (areaCompats : List Compat) : List Int :=
  List.insertionSort (fun a b => a ≤ b) ((areaCompats.map (fun c => c.priority)).dedup)

/-- One complete `(area, year)` allocation pass: the body of the
`for area, line_ids_in_area in lines_by_area.items()` loop of
`run_optimization_for_year` (optimizer.py 342-448). -/
def run_area_allocation (areaLines : List ProductionLine) (cbl : String → List Compat)
    (vols : String → Option ℚ) : Option AllocState :=
  let areaCompats := buildAreaCompats areaLines cbl vols
  processPriorities (priorityLevels areaCompats) areaCompats
    { lines := areaLines, pool := seedPool areaCompats vols }

/-- Total of the recorded `allocatedUnitsDaily` for model `m` on one line. -/
def lineSumFor (m : String) (l : ProductionLine) : ℚ :=
  ((l.assignments.filter (fun a => a.modelId = m)).map
    (fun a => a.allocatedUnitsDaily)).sum

/-- Total of the recorded `allocatedUnitsDaily` for model `m` over lines. -/
def sumRecorded (m : String) (lines : List ProductionLine) : ℚ :=
  (lines.map (lineSumFor m)).sum

/-- Number of assignments recorded for model `m` on one line, as a rational. -/
def lineCntFor (m : String) (l : ProductionLine) : ℚ :=
  ((l.assignments.filter (fun a => a.modelId = m)).length : ℚ)

/-- Number of assignments recorded for model `m` over a list of lines. -/
def assignCount (m : String) (lines : List ProductionLine) : ℚ :=
  (lines.map (lineCntFor m)).sum

/-- The `ModelInfo` dataclass of `Optimizer/changeover/base.py`. -/
structure ModelInfo where
  model_id : String
  model_name : String
  family : String
  allocated_units_daily : ℚ
  demand_units_daily : ℚ
deriving DecidableEq, Repr

/-- The `TransitionAnalysis` dataclass of `Optimizer/changeover/base.py`. -/
structure TransitionAnalysis where
  from_model_id : String
  from_model_name : String
  to_model_id : String
  to_model_name : String
  changeover_minutes : ℚ
  probability : ℚ
  weighted_contribution : ℚ
  percent_of_total : ℚ
deriving DecidableEq, Repr

/-- The `ChangeoverInput` dataclass of `Optimizer/changeover/base.py`; the
`changeover_matrix` dict together with its `.get(key, 0)` lookups is modelled
by a total function defaulting to `0`. -/
structure ChangeoverInput where
  line_id : String
  line_name : String
  area : String
  models : List ModelInfo
  changeover_matrix : String → String → ℚ
  num_changeovers_per_day : Int
  time_available_daily : ℚ

/-- The `ChangeoverResult` dataclass of `Optimizer/changeover/base.py`. -/
structure ChangeoverResult where
  line_id : String
  line_name : String
  area : String
  method_used : String
  time_used_production : ℚ
  time_used_changeover : ℚ
  total_time_used : ℚ
  time_available : ℚ
  utilization_production_only : ℚ
  utilization_with_changeover : ℚ
  changeover_impact_percent : ℚ
  estimated_changeover_count : Int
  expected_changeover_time : ℚ
  worst_case_changeover_time : ℚ
  top_costly_transitions : List TransitionAnalysis
  hhi : ℚ
  warnings : List String

/-- `ChangeoverMethod._calculate_hhi` (base.py 167-185): per-entry proportions
of the allocated units (each list entry counted separately). -/
def calculateHHI (models : List ModelInfo) : ℚ :=
  let total := (models.map (fun m => m.allocated_units_daily)).sum
  if total ≤ 0 then 0
  else (models.map (fun m => (m.allocated_units_daily / total) ^ 2)).sum

/-- The ordered pairs `(from_model, to_model)` visited by the nested
`for from_model in models: for to_model in models:` loops, skipping pairs
with equal ids, in loop order. -/
def orderedPairs (models : List ModelInfo) : List (ModelInfo × ModelInfo) :=
  models.flatMap (fun fm =>
    (models.filter (fun tm => tm.model_id ≠ fm.model_id)).map (fun tm => (fm, tm)))

/-- `ChangeoverMethod._get_worst_case_changeover` (base.py 187-200). -/
def worstCaseChangeover (models : List ModelInfo) (matrix : String → String → ℚ) : ℚ :=
  (orderedPairs models).foldl
    (fun acc q => max acc (matrix q.1.model_id q.2.model_id)) 0

/-- `ChangeoverMethod._build_result` (base.py 202-264).  Numeric result fields
go through `round(_, 2)` (`round(_, 4)` for the HHI) just as in the source. -/
def buildResult (methodId : String) (input : ChangeoverInput)
    (time_used_changeover expected_changeover_time : ℚ)
    (transitions : List TransitionAnalysis) (warnings : List String) : ChangeoverResult :=
  let tup := input.time_available_daily - time_used_changeover
  let time_used_production := if tup < 0 then 0 else tup
  let warnings2 :=
    if tup < 0 then warnings ++ ["Changeover time exceeds available time"] else warnings
  let total_time_used := time_used_production + time_used_changeover
  let util_production :=
    if 0 < input.time_available_daily
    then time_used_production / input.time_available_daily * 100 else 0
  let util_with :=
    if 0 < input.time_available_daily
    then total_time_used / input.time_available_daily * 100 else 0
  let impact := if util_with < util_production then util_production - util_with else 0
  { line_id := input.line_id
    line_name := input.line_name
    area := input.area
    method_used := methodId
    time_used_production := round2 time_used_production
    time_used_changeover := round2 time_used_changeover
    total_time_used := round2 total_time_used
    time_available := input.time_available_daily
    utilization_production_only := round2 util_production
    utilization_with_changeover := round2 util_with
    changeover_impact_percent := round2 impact
    estimated_changeover_count := input.num_changeovers_per_day
    expected_changeover_time := round2 expected_changeover_time
    worst_case_changeover_time := round2 (worstCaseChangeover input.models input.changeover_matrix * 60)
    top_costly_transitions := transitions.take 10
    hhi := round4 (calculateHHI input.models)
    warnings := warnings2 }

/-- The `proportions` dict of `ProbabilityWeightedMethod.calculate` (methods.py
89-91): later entries with the same id overwrite earlier ones, lookups of other
keys never happen in the source's totals. -/
def proportionsOf (models : List ModelInfo) (total : ℚ) : String → ℚ :=
  models.foldl
    (fun f m => Function.update f m.model_id (m.allocated_units_daily / total))
    (fun _ => 0)

/-- `ProbabilityWeightedMethod.calculate` (methods.py 50-154) with the default
configuration (`config = None`, so `min_models_for_probability = 2`). -/
def probability_weighted_calculate (input : ChangeoverInput) : ChangeoverResult :=
  if input.models.length < 2 then
    buildResult "probability_weighted" input 0 0 []
      ["Less than 2 models - no changeover needed"]
  else
    let total := (input.models.map (fun m => m.allocated_units_daily)).sum
    if total ≤ 0 then
      buildResult "probability_weighted" input 0 0 []
        ["No allocated demand - cannot calculate proportions"]
    else
      let proportions := proportionsOf input.models total
      let hhi := (((input.models.map (fun m => m.model_id)).dedup).map
        (fun i => proportions i ^ 2)).sum
      let pairs := orderedPairs input.models
      let weighted_sum := (pairs.map (fun q =>
        proportions q.1.model_id * proportions q.2.model_id *
          input.changeover_matrix q.1.model_id q.2.model_id)).sum
      let transitions0 := pairs.map (fun q =>
        let cm := input.changeover_matrix q.1.model_id q.2.model_id
        let prob := proportions q.1.model_id * proportions q.2.model_id
        { from_model_id := q.1.model_id
          from_model_name := q.1.model_name
          to_model_id := q.2.model_id
          to_model_name := q.2.model_name
          changeover_minutes := cm
          probability := round6 prob
          weighted_contribution := round4 (prob * cm)
          percent_of_total := 0 : TransitionAnalysis })
      let normalization := 1 - hhi
      let expected_min := if normalization ≤ 1 / 100 then 0 else weighted_sum / normalization
      let warnings :=
        if normalization ≤ 1 / 100
        then ["HHI >= 0.99: production dominated by single model"] else []
      let total_contribution := (transitions0.map (fun t => t.weighted_contribution)).sum
      let transitions1 :=
        if 0 < total_contribution then
          transitions0.map (fun t =>
            { t with percent_of_total := round2 (t.weighted_contribution / total_contribution * 100) })
        else transitions0
      let transitions2 := List.insertionSort
        (fun a b => b.weighted_contribution ≤ a.weighted_contribution) transitions1
      let expected_sec := expected_min * 60
      buildResult "probability_weighted" input
        (expected_sec * (input.num_changeovers_per_day : ℚ)) expected_sec transitions2 warnings

/-- `SimpleAverageMethod.calculate` (methods.py 185-261). -/
def simple_average_calculate (input : ChangeoverInput) : ChangeoverResult :=
  if input.models.length < 2 then
    buildResult "simple_average" input 0 0 []
      ["Less than 2 models - no changeover needed"]
  else
    let pairs := orderedPairs input.models
    let n := input.models.length
    let uniform : ℚ := if 1 < n then 1 / ((n : ℚ) * ((n : ℚ) - 1)) else 0
    let total_time := (pairs.map (fun q =>
      input.changeover_matrix q.1.model_id q.2.model_id)).sum
    let count := pairs.length
    let transitions0 := pairs.map (fun q =>
      let cm := input.changeover_matrix q.1.model_id q.2.model_id
      { from_model_id := q.1.model_id
        from_model_name := q.1.model_name
        to_model_id := q.2.model_id
        to_model_name := q.2.model_name
        changeover_minutes := cm
        probability := round6 uniform
        weighted_contribution := round4 (cm * uniform)
        percent_of_total := 0 : TransitionAnalysis })
    let average := if 0 < count then total_time / (count : ℚ) else 0
    let total_contribution := (transitions0.map (fun t => t.changeover_minutes)).sum
    let transitions1 :=
      if 0 < total_contribution then
        transitions0.map (fun t =>
          { t with percent_of_total := round2 (t.changeover_minutes / total_contribution * 100) })
      else transitions0
    let transitions2 := List.insertionSort
      (fun a b => b.changeover_minutes ≤ a.changeover_minutes) transitions1
    let average_sec := average * 60
    buildResult "simple_average" input
      (average_sec * (input.num_changeovers_per_day : ℚ)) average_sec transitions2 warnings0
  where warnings0 : List String := []

/-- The scan of `WorstCaseMethod.calculate` (methods.py 314-340): a running
maximum; each transition's probability is 1 exactly when its minutes equal the
maximum seen so far (after this step's update), as in the source. -/
def worstCaseScan (matrix : String → String → ℚ) :
    List (ModelInfo × ModelInfo) → ℚ → Option (ModelInfo × ModelInfo) →
    List TransitionAnalysis → ℚ × Option (ModelInfo × ModelInfo) × List TransitionAnalysis
  | [], mx, mt, acc => (mx, mt, acc)
  | q :: rest, mx, mt, acc =>
    let cm := matrix q.1.model_id q.2.model_id
    let mx' := if mx < cm then cm else mx
    let mt' := if mx < cm then some q else mt
    let t : TransitionAnalysis :=
      { from_model_id := q.1.model_id
        from_model_name := q.1.model_name
        to_model_id := q.2.model_id
        to_model_name := q.2.model_name
        changeover_minutes := cm
        probability := if cm = mx' then 1 else 0
        weighted_contribution := cm
        percent_of_total := 0 }
    worstCaseScan matrix rest mx' mt' (acc ++ [t])

/-- `WorstCaseMethod.calculate` (methods.py 290-366).  The warning text keeps
the source's two branches but omits the `%.1f`-formatted number. -/
def worst_case_calculate (input : ChangeoverInput) : ChangeoverResult :=
  if input.models.length < 2 then
    buildResult "worst_case" input 0 0 []
      ["Less than 2 models - no changeover needed"]
  else
    let scan := worstCaseScan input.changeover_matrix (orderedPairs input.models) 0 none []
    let mx := scan.1
    let transitions1 :=
      if 0 < mx then
        scan.2.2.map (fun t =>
          { t with percent_of_total := round2 (t.changeover_minutes / mx * 100) })
      else scan.2.2
    let transitions2 := List.insertionSort
      (fun a b => b.changeover_minutes ≤ a.changeover_minutes) transitions1
    let warnings :=
      [match scan.2.1 with
       | some q => "Using worst-case: " ++ q.1.model_name ++ " -> " ++ q.2.model_name
       | none => "No transitions found"]
    let mx_sec := mx * 60
    buildResult "worst_case" input
      (mx_sec * (input.num_changeovers_per_day : ℚ)) mx_sec transitions2 warnings

/-- A registered changeover strategy as the registry sees it: its id, its
`implemented` flag, and its `calculate`; `none` from `calcFn` models an
exception escaping the strategy. -/
structure Method where
  id : String
  implemented : Bool
  calcFn : ChangeoverInput → Option ChangeoverResult

/-- The failure conditions `ChangeoverMethodRegistry.calculate` can raise:
the two `ValueError`s of registry.py 94-98 and any exception escaping the
method's own `calculate`. -/
inductive RegError where
  | unknownMethod (id : String)
  | notImplemented (id : String)
  | calcFailure
deriving DecidableEq, Repr

/-- `ChangeoverMethodRegistry.get` (registry.py 30-40); registration
(`register`) keyed the dict by `method.id`, so lookup is by id. -/
def getMethod (r : List Method) (method_id : String) : Option Method :=
  r.find? (fun m => m.id = method_id)

/-- `ChangeoverMethodRegistry.calculate` (registry.py 72-100). -/
def registry_calculate (r : List Method) (method_id : String)
    (input : ChangeoverInput) : Except RegError ChangeoverResult :=
  match getMethod r method_id with
  | none => .error (.unknownMethod method_id)
  | some m =>
    if m.implemented = false then .error (.notImplemented method_id)
    else
      match m.calcFn input with
      | some res => .ok res
      | none => .error .calcFailure

/-- `ChangeoverMethodRegistry.calculate_with_fallback` (registry.py 102-125):
every failure of the preferred method is caught (`except (ValueError,
Exception)`) and the fallback is tried; the fallback's own failure
propagates.  The Python signature defaults `fallback_method_id` to
`"simple_average"`; callers here pass it explicitly. -/
def calculate_with_fallback (r : List Method) (preferred_method_id : String)
    (input : ChangeoverInput) (fallback_method_id : String) :
    Except RegError ChangeoverResult :=
  match registry_calculate r preferred_method_id input with
  | .ok res => .ok res
  | .error _ => registry_calculate r fallback_method_id input

/-- The `ProbabilityWeightedMethod()` instance (implemented, never raises). -/
def probabilityWeightedMethod : Method :=
  { id := "probability_weighted", implemented := true
    calcFn := fun i => some (probability_weighted_calculate i) }

/-- The `SimpleAverageMethod()` instance (implemented, never raises). -/
def simpleAverageMethod : Method :=
  { id := "simple_average", implemented := true
    calcFn := fun i => some (simple_average_calculate i) }

/-- The `WorstCaseMethod()` instance (implemented, never raises). -/
def worstCaseMethod : Method :=
  { id := "worst_case", implemented := true
    calcFn := fun i => some (worst_case_calculate i) }

/-- The `TSPOptimalMethod` stub (methods.py 369-411): `implemented` is false
and `calculate` raises `NotImplementedError`. -/
def tspOptimalMethod : Method :=
  { id := "tsp_optimal", implemented := false, calcFn := fun _ => none }

/-- The module-level default registry of `Optimizer/changeover/__init__.py`
(lines 17-21): exactly the three implemented strategies, in registration
order; `TSPOptimalMethod` is not registered. -/
def defaultRegistry : List Method :=
  [probabilityWeightedMethod, simpleAverageMethod, worstCaseMethod]

/-- `areas_with_unfulfilled` (optimizer.py 633-637): areas whose per-model
unfulfilled tracker entry is non-empty, with their summed unfulfilled units,
in tracker order. -/
def areasWithUnfulfilled (tracker : List (String × List (String × ℚ))) :
    List (String × ℚ) :=
  (tracker.filter (fun p => !p.2.isEmpty)).map
    (fun p => (p.1, (p.2.map (fun q => q.2)).sum))

/-- Python `max(items, key=lambda x: x[1])`: the first maximal element wins
ties, later elements replace the best only on a strict increase. -/
def maxByValue : List (String × ℚ) → Option (String × ℚ)
  | [] => none
  | x :: xs => some (xs.foldl (fun best y => if best.2 < y.2 then y else best) x)

/-- System-constraint selection (optimizer.py 733-785): an area with
unfulfilled demand wins with reason `"unfulfilled_demand"`; otherwise the
area with the highest average utilization is selected with reason
`"highest_utilization"` only when that utilization is at least 100; else no
constraint (`None`).  Returns the selected `(area, reason)`. -/
def selectSystemConstraint (tracker : List (String × List (String × ℚ)))
    (utils : List (String × ℚ)) : Option (String × String) :=
  match maxByValue (areasWithUnfulfilled tracker) with
  | some (a, _) => some (a, "unfulfilled_demand")
  | none =>
    match maxByValue utils with
    | some (a, u) => if 100 ≤ u then some (a, "highest_utilization") else none
    | none => none

/-- Modelled from the spec: the claim formula `HHI = Σ p_i²` with
`p_i = allocated_i / Σ allocated`, each model entry counted once. -/
def specHHI (models : List ModelInfo) : ℚ :=
  let total := (models.map (fun m => m.allocated_units_daily)).sum
  (models.map (fun m => (m.allocated_units_daily / total) ^ 2)).sum

/-- Modelled from the spec: the claim formula
`W = Σ over ordered pairs i ≠ j of p_i * p_j * matrix[i, j]` (minutes). -/
def specW (models : List ModelInfo) (matrix : String → String → ℚ) : ℚ :=
  let total := (models.map (fun m => m.allocated_units_daily)).sum
  ((orderedPairs models).map (fun q =>
    (q.1.allocated_units_daily / total) * (q.2.allocated_units_daily / total) *
      matrix q.1.model_id q.2.model_id)).sum


/-- Line SMT-1 of the priority-distribution test scenario
(`test_priority_distribution.py`): 28,800 s/day, no `lineType` in the input,
so the `'shared'` default applies. -/
def testLine1 : ProductionLine :=
  { id := "line-smt-1", name := "SMT-1", area := "SMT", lineType := "shared"
    timeAvailableDaily := 28800, timeUsedDaily := 0, assignments := [] }

/-- Line SMT-2 of the priority-distribution test scenario. -/
def testLine2 : ProductionLine :=
  { id := "line-smt-2", name := "SMT-2", area := "SMT", lineType := "shared"
    timeAvailableDaily := 28800, timeUsedDaily := 0, assignments := [] }

/-- The six compatibility records of the test scenario, in input order:
A at priority 1 on both lines, B at 2 on SMT-1 and 1 on SMT-2, C at 1 on
SMT-1 and 2 on SMT-2; all cycle time 300 s, efficiency 85. -/
def testCompats : List Compat :=
  [ { lineId := "line-smt-1", modelId := "model-a", modelName := "Model A"
      cycleTime := 300, efficiency := 85, priority := 1 }
  , { lineId := "line-smt-2", modelId := "model-a", modelName := "Model A"
      cycleTime := 300, efficiency := 85, priority := 1 }
  , { lineId := "line-smt-1", modelId := "model-b", modelName := "Model B"
      cycleTime := 300, efficiency := 85, priority := 2 }
  , { lineId := "line-smt-2", modelId := "model-b", modelName := "Model B"
      cycleTime := 300, efficiency := 85, priority := 1 }
  , { lineId := "line-smt-1", modelId := "model-c", modelName := "Model C"
      cycleTime := 300, efficiency := 85, priority := 1 }
  , { lineId := "line-smt-2", modelId := "model-c", modelName := "Model C"
      cycleTime := 300, efficiency := 85, priority := 2 } ]

/-- Daily demands of the test scenario for 2024: A = 10000/250 = 40,
B = 15000/250 = 60, C = 12000/250 = 48 units/day. -/
def testVols : String → Option ℚ := fun m =>
  if m = "model-a" then some (10000 / 250)
  else if m = "model-b" then some (15000 / 250)
  else if m = "model-c" then some (12000 / 250)
  else none

/-- The test scenario's `compats_by_line` dict. -/
def testCBL : String → List Compat := get_compatibilities_by_line testCompats

/-- The full allocation pass of the test scenario. -/
def testRun : Option AllocState :=
  run_area_allocation [testLine1, testLine2] testCBL testVols

/-- The state the test scenario's pass ends in. -/
def testSt : AllocState := testRun.getD { lines := [], pool := fun _ => 0 }

/-- A fresh line with spare capacity, for concrete `add_model` calls. -/
def freshLine : ProductionLine :=
  { id := "l-1", name := "Line 1", area := "A1", lineType := "shared"
    timeAvailableDaily := 28800, timeUsedDaily := 0, assignments := [] }

/-- A line whose capacity is exhausted (`timeUsedDaily = timeAvailableDaily`). -/
def fullLine : ProductionLine :=
  { id := "l-2", name := "Line 2", area := "A1", lineType := "shared"
    timeAvailableDaily := 28800, timeUsedDaily := 28800, assignments := [] }

/-- A line with zero available time (`timeAvailableDaily = 0`). -/
def zeroCapLine : ProductionLine :=
  { id := "l-3", name := "Line 3", area := "A1", lineType := "shared"
    timeAvailableDaily := 0, timeUsedDaily := 0, assignments := [] }

/-- The state of `freshLine` after allocating 10 units of a
300 s / 85 percent model: 10 * (300 / 0.85) = 60000/17 seconds used. -/
def freshAfter : ProductionLine :=
  { freshLine with
    timeUsedDaily := 60000 / 17
    assignments := [mkAssignment "m1" "M1" 10 10 300 85 1] }

/-- One-line area for the pool/rounding scenario: ample capacity. -/
def cxLine : ProductionLine :=
  { id := "cx-l1", name := "CX-1", area := "CX", lineType := "shared"
    timeAvailableDaily := 28800, timeUsedDaily := 0, assignments := [] }

/-- A single compatibility for `model-x` on the line above. -/
def cxCompats : List Compat :=
  [ { lineId := "cx-l1", modelId := "model-x", modelName := "Model X"
      cycleTime := 300, efficiency := 85, priority := 1 } ]

/-- `compats_by_line` of the pool/rounding scenario. -/
def cxCBL : String → List Compat := get_compatibilities_by_line cxCompats

/-- A tiny daily demand, 3/500 = 0.006 units/day (e.g. volume 1.5 over 250
operating days), chosen so that `round(0.006, 2) = 0.01` exceeds it. -/
def cxVols : String → Option ℚ := fun m =>
  if m = "model-x" then some (3 / 500) else none

/-- The pool/rounding scenario's allocation pass. -/
def cxRun : Option AllocState := run_area_allocation [cxLine] cxCBL cxVols

/-- The state the pool/rounding scenario's pass ends in. -/
def cxSt : AllocState := cxRun.getD { lines := [], pool := fun _ => 0 }

/-- Three models with allocated units 1, 1 and 4 (distinct ids). -/
def c6Models : List ModelInfo :=
  [ { model_id := "mx", model_name := "MX", family := "F"
      allocated_units_daily := 1, demand_units_daily := 1 }
  , { model_id := "my", model_name := "MY", family := "F"
      allocated_units_daily := 1, demand_units_daily := 1 }
  , { model_id := "mz", model_name := "MZ", family := "F"
      allocated_units_daily := 4, demand_units_daily := 4 } ]

/-- A changeover matrix that charges 1 minute for `mx → my` and 0 elsewhere. -/
def c6Matrix : String → String → ℚ :=
  fun f t => if f = "mx" ∧ t = "my" then 1 else 0

/-- A concrete `ChangeoverInput` whose exact probability-weighted expectation,
10/3 seconds, is not representable in 2 decimals. -/
def c6Input : ChangeoverInput :=
  { line_id := "l-1", line_name := "Line 1", area := "A1"
    models := c6Models, changeover_matrix := c6Matrix
    num_changeovers_per_day := 2, time_available_daily := 28800 }

/-- A concrete unfulfilled-demand tracker: one area with one entry. -/
def c8Tracker : List (String × List (String × ℚ)) := [("SMT", [("model-x", 5)])]

/-- Concrete per-area average utilizations. -/
def c8Utils : List (String × ℚ) := [("SMT", 97)]

/-- Rounding to two decimals is monotone. -/
theorem round2_mono {x y : ℚ} (h : x ≤ y) : round2 x ≤ round2 y := by
  unfold round2
  have : round (100 * x) ≤ round (100 * y) := by
    rw [round_eq, round_eq]
    exact Int.floor_le_floor (by linarith)
  exact (div_le_div_iff_of_pos_right (by norm_num)).mpr (by exact_mod_cast this)

/-- Rounding to two decimals of zero is zero. -/
theorem round2_zero : round2 0 = 0 := by
  unfold round2
  norm_num

/-- Rounding to two decimals overshoots by at most 1/200. -/
theorem round2_le (x : ℚ) : round2 x ≤ x + 1 / 200 := by
  unfold round2
  have h := abs_sub_round (100 * x)
  have h1 : (round (100 * x) : ℚ) ≤ 100 * x + 1 / 2 := by
    have := abs_le.mp h
    linarith [this.1, this.2]
  linarith

/-- A nonnegative rational rounds to a nonnegative rational. -/
theorem round2_nonneg {x : ℚ} (h : 0 ≤ x) : 0 ≤ round2 x := by
  have := round2_mono h
  rwa [round2_zero] at this

/-- Full case analysis of a non-raising `add_model` call: either nothing was
allocated and the line is untouched, or a positive amount `r`, at most the
requested demand and costing at most the remaining available time, was
allocated, one assignment was appended, and `r * adjustedCycleTime` was added
to `timeUsedDaily`. -/
theorem add_model_cases (l : ProductionLine) (mid mname : String)
    (d ct eff : ℚ) (p : Int) (r : ℚ) (l' : ProductionLine)
    (h : l.add_model mid mname d ct eff p = some (r, l')) :
    (r = 0 ∧ l' = l) ∨
    (0 < r ∧ r ≤ d ∧ 0 < l.timeAvailableDaily - l.timeUsedDaily ∧
      r * (ct / (eff / 100)) ≤ l.timeAvailableDaily - l.timeUsedDaily ∧
      l' = { l with
        timeUsedDaily := l.timeUsedDaily + r * (ct / (eff / 100))
        assignments := l.assignments ++ [mkAssignment mid mname r d ct eff p] }) := by
  unfold ProductionLine.add_model at h
  dsimp only at h
  split at h
  · exact absurd h (by simp)
  split at h
  · rw [Option.some.injEq, Prod.mk.injEq] at h
    exact Or.inl ⟨h.1.symm, h.2.symm⟩
  split at h
  · exact absurd h (by simp)
  split at h
  · rw [Option.some.injEq, Prod.mk.injEq] at h
    exact Or.inl ⟨h.1.symm, h.2.symm⟩
  rename_i heff hneg hadjne halloc
  rw [Option.some.injEq, Prod.mk.injEq] at h
  right
  have hpos : 0 < l.timeAvailableDaily - l.timeUsedDaily := lt_of_not_le hneg
  have hr : min ((l.timeAvailableDaily - l.timeUsedDaily) / (ct / (eff / 100))) d = r := h.1
  have hrpos : 0 < r := hr ▸ lt_of_not_le halloc
  have hrd : r ≤ d := hr ▸ min_le_right _ _
  have hrmax : r ≤ (l.timeAvailableDaily - l.timeUsedDaily) / (ct / (eff / 100)) :=
    hr ▸ min_le_left _ _
  have hadjpos : 0 < ct / (eff / 100) := by
    by_contra hle
    push_neg at hle
    rcases lt_or_eq_of_le hle with hlt | heq
    · have : (l.timeAvailableDaily - l.timeUsedDaily) / (ct / (eff / 100)) < 0 :=
        div_neg_of_pos_of_neg hpos hlt
      linarith
    · exact hadjne heq
  have hcost : r * (ct / (eff / 100)) ≤ l.timeAvailableDaily - l.timeUsedDaily := by
    calc r * (ct / (eff / 100))
        ≤ (l.timeAvailableDaily - l.timeUsedDaily) / (ct / (eff / 100)) * (ct / (eff / 100)) :=
          mul_le_mul_of_nonneg_right hrmax (le_of_lt hadjpos)
      _ = l.timeAvailableDaily - l.timeUsedDaily :=
          div_mul_cancel₀ _ (ne_of_gt hadjpos)
  refine ⟨hrpos, hrd, hpos, hcost, ?_⟩
  rw [← h.2, hr]

/-- Writing back a mutated line does not change the lines' ids. -/
theorem updateLine_map_id (lines : List ProductionLine) (l' : ProductionLine) :
    (updateLine lines l').map (fun l => l.id) = lines.map (fun l => l.id) := by
  unfold updateLine
  rw [List.map_map]
  apply List.map_congr_left
  intro a _
  by_cases h : a.id = l'.id
  · simp [h]
  · simp [h]

/-- A member of the written-back list is the new line or an old member. -/
theorem mem_updateLine {lines : List ProductionLine} {l' x : ProductionLine}
    (h : x ∈ updateLine lines l') : x = l' ∨ x ∈ lines := by
  unfold updateLine at h
  rcases List.mem_map.mp h with ⟨a, ha, hax⟩
  by_cases hid : a.id = l'.id
  · rw [if_pos hid] at hax
    exact Or.inl hax.symm
  · rw [if_neg hid] at hax
    exact Or.inr (hax ▸ ha)

/-- Mapping over a list where no element has the replaced id is the identity. -/
theorem updateLine_eq_self_of_notmem (xs : List ProductionLine) (l' : ProductionLine)
    (h : ∀ y ∈ xs, y.id ≠ l'.id) : updateLine xs l' = xs := by
  unfold updateLine
  induction xs with
  | nil => rfl
  | cons x xs ih =>
    have hx := h x (List.mem_cons_self x xs)
    rw [List.map_cons, if_neg hx, ih (fun y hy => h y (List.mem_cons_of_mem x hy))]

/-- Accounting for one write-back when line ids are distinct: any per-line
rational measure `f` changes by exactly the replaced line's delta. -/
theorem sum_updateLine (f : ProductionLine → ℚ) :
    ∀ (lines : List ProductionLine) (lid : String) (l l' : ProductionLine),
      (lines.map (fun x => x.id)).Nodup →
      findLine lines lid = some l → l'.id = l.id →
      ((updateLine lines l').map f).sum + f l = (lines.map f).sum + f l' := by
  intro lines
  induction lines with
  | nil => intro lid l l' _ hfind _; exact absurd hfind (by simp [findLine])
  | cons x xs ih =>
    intro lid l l' hnd hfind hid
    rw [List.map_cons, List.nodup_cons] at hnd
    unfold findLine at hfind
    by_cases hx : x.id = lid
    · rw [List.find?_cons_of_pos _ (by simp [hx])] at hfind
      have hxl : x = l := Option.some.inj hfind
      have hrest : ∀ y ∈ xs, y.id ≠ l'.id := by
        intro y hy hcon
        apply hnd.1
        have hyx : y.id = x.id := by rw [hcon, hid, ← hxl]
        exact List.mem_map.mpr ⟨y, hy, hyx⟩
      simp only [updateLine, List.map_cons]
      rw [if_pos (by rw [hid, ← hxl])]
      have hxs : List.map (fun l => if l.id = l'.id then l' else l) xs = xs :=
        updateLine_eq_self_of_notmem xs l' hrest
      rw [hxs, List.sum_cons, List.sum_cons, hxl]
      ring
    · rw [List.find?_cons_of_neg _ (by simp [hx])] at hfind
      have hl_mem : l ∈ xs := List.mem_of_find?_eq_some hfind
      have hxne : x.id ≠ l'.id := by
        rw [hid]
        intro hcon
        apply hnd.1
        have : l.id = x.id := hcon.symm
        rw [← this]
        exact List.mem_map.mpr ⟨l, hl_mem, rfl⟩
      have hrec := ih lid l l' hnd.2 hfind hid
      simp only [updateLine, List.map_cons] at hrec ⊢
      rw [if_neg hxne, List.sum_cons, List.sum_cons]
      linarith

/-- `distributeModel` preserves any state predicate preserved by its single
allocation step. -/
theorem distributeModel_pres {P : AllocState → Prop}
    (hstep : ∀ (m : String) (c : Compat) (st : AllocState) (r : ℚ) (line line' : ProductionLine),
      findLine st.lines c.lineId = some line →
      line.add_model m c.modelName (st.pool m) c.cycleTime c.efficiency c.priority
        = some (r, line') →
      P st →
      P { lines := updateLine st.lines line'
          pool := if 0 < r then Function.update st.pool m (st.pool m - r) else st.pool }) :
    ∀ m cs st st', distributeModel m cs st = some st' → P st → P st' := by
  intro m cs
  induction cs with
  | nil =>
    intro st st' h hP
    unfold distributeModel at h
    exact Option.some.inj h ▸ hP
  | cons c cs ih =>
    intro st st' h hP
    unfold distributeModel at h
    cases hfind : findLine st.lines c.lineId with
    | none => rw [hfind] at h; exact absurd h (by simp)
    | some line =>
      rw [hfind] at h
      dsimp only at h
      split at h
      · exact Option.some.inj h ▸ hP
      · cases hadd : line.add_model m c.modelName (st.pool m) c.cycleTime c.efficiency c.priority with
        | none => rw [hadd] at h; exact absurd h (by simp)
        | some pr =>
          rw [hadd] at h
          dsimp only at h
          exact ih _ _ h (hstep m c st pr.1 line pr.2 hfind (by rw [hadd]) hP)

/-- `processModels` preserves any predicate preserved by the allocation step. -/
theorem processModels_pres {P : AllocState → Prop}
    (hstep : ∀ (m : String) (c : Compat) (st : AllocState) (r : ℚ) (line line' : ProductionLine),
      findLine st.lines c.lineId = some line →
      line.add_model m c.modelName (st.pool m) c.cycleTime c.efficiency c.priority
        = some (r, line') →
      P st →
      P { lines := updateLine st.lines line'
          pool := if 0 < r then Function.update st.pool m (st.pool m - r) else st.pool }) :
    ∀ gs st st', processModels gs st = some st' → P st → P st' := by
  intro gs
  induction gs with
  | nil =>
    intro st st' h hP
    unfold processModels at h
    exact Option.some.inj h ▸ hP
  | cons g gs ih =>
    intro st st' h hP
    unfold processModels at h
    split at h
    · exact ih _ _ h hP
    · cases hd : distributeModel g.1 g.2 st with
      | none => rw [hd] at h; exact absurd h (by simp)
      | some st1 =>
        rw [hd] at h
        dsimp only at h
        exact ih _ _ h (distributeModel_pres hstep g.1 g.2 st st1 hd hP)

/-- `processPriorities` preserves any predicate preserved by the step. -/
theorem processPriorities_pres {P : AllocState → Prop}
    (hstep : ∀ (m : String) (c : Compat) (st : AllocState) (r : ℚ) (line line' : ProductionLine),
      findLine st.lines c.lineId = some line →
      line.add_model m c.modelName (st.pool m) c.cycleTime c.efficiency c.priority
        = some (r, line') →
      P st →
      P { lines := updateLine st.lines line'
          pool := if 0 < r then Function.update st.pool m (st.pool m - r) else st.pool }) :
    ∀ ps compats st st', processPriorities ps compats st = some st' → P st → P st' := by
  intro ps
  induction ps with
  | nil =>
    intro compats st st' h hP
    unfold processPriorities at h
    exact Option.some.inj h ▸ hP
  | cons p ps ih =>
    intro compats st st' h hP
    unfold processPriorities at h
    cases hm : processModels (groupByModel (compats.filter (fun c => c.priority = p))) st with
    | none => rw [hm] at h; exact absurd h (by simp)
    | some st1 =>
      rw [hm] at h
      dsimp only at h
      exact ih _ _ _ h (processModels_pres hstep _ st st1 hm hP)

/-- `run_area_allocation` preserves any predicate preserved by the step,
starting from the freshly seeded state. -/
theorem run_area_allocation_pres {P : AllocState → Prop}
    (hstep : ∀ (m : String) (c : Compat) (st : AllocState) (r : ℚ) (line line' : ProductionLine),
      findLine st.lines c.lineId = some line →
      line.add_model m c.modelName (st.pool m) c.cycleTime c.efficiency c.priority
        = some (r, line') →
      P st →
      P { lines := updateLine st.lines line'
          pool := if 0 < r then Function.update st.pool m (st.pool m - r) else st.pool })
    (areaLines : List ProductionLine) (cbl : String → List Compat)
    (vols : String → Option ℚ) (st' : AllocState)
    (h : run_area_allocation areaLines cbl vols = some st')
    (hP : P { lines := areaLines
              pool := seedPool (buildAreaCompats areaLines cbl vols) vols }) :
    P st' := by
  unfold run_area_allocation at h
  exact processPriorities_pres hstep _ _ _ _ h hP

/-- Capacity preservation for one `add_model` call. -/
theorem add_model_capacity {l : ProductionLine} {mid mname : String}
    {d ct eff : ℚ} {p : Int} {r : ℚ} {l' : ProductionLine}
    (hinv : l.timeUsedDaily ≤ l.timeAvailableDaily)
    (h : l.add_model mid mname d ct eff p = some (r, l')) :
    l'.timeUsedDaily ≤ l'.timeAvailableDaily := by
  rcases add_model_cases l mid mname d ct eff p r l' h with ⟨_, hl⟩ | ⟨_, _, _, hcost, hl⟩
  · exact hl ▸ hinv
  · rw [hl]
    simp only
    linarith

set_option maxHeartbeats 2000000 in
/-- Concrete execution of the test scenario: the resulting per-line
assignment views (model, priority, allocated units). -/
theorem testView_eq :
    (run_area_allocation [testLine1, testLine2] testCBL testVols).map
      (fun st => st.lines.map (fun l =>
        (l.id, l.assignments.map (fun a => (a.modelId, a.priority, a.allocatedUnitsDaily)))))
    = some
      [ ("line-smt-1", [("model-a", 1, 40), ("model-c", 1, 208 / 5)])
      , ("line-smt-2", [("model-b", 1, 60), ("model-c", 2, 32 / 5)]) ] := by
  repeat
    first
      | simp [run_area_allocation, buildAreaCompats, seedPool, priorityLevels,
          processPriorities, processModels, groupByModel, keysAux, distributeModel,
          findLine, updateLine, ProductionLine.add_model, mkAssignment,
          get_compatibilities_by_line, testCBL, testVols, testCompats, testLine1, testLine2,
          Function.update_apply, List.insertionSort, List.orderedInsert, round2, round_eq,
          List.find?]
      | norm_num [Function.update_apply, mkAssignment, round2, round_eq]

/-- The test scenario pass returns normally. -/
theorem testRun_isSome :
    (run_area_allocation [testLine1, testLine2] testCBL testVols).isSome = true := by
  cases hr : run_area_allocation [testLine1, testLine2] testCBL testVols with
  | none =>
    have h := testView_eq
    rw [hr] at h
    exact absurd h (by simp)
  | some st => rfl

/-- The test scenario pass ends in the state `testSt`. -/
theorem testRun_eq : run_area_allocation [testLine1, testLine2] testCBL testVols
    = some testSt := by
  show testRun = some testSt
  have h : testRun.isSome = true := testRun_isSome
  unfold testSt
  cases hr : testRun with
  | none => rw [hr] at h; exact absurd h (by simp)
  | some st => rfl

set_option maxHeartbeats 1000000 in
/-- Concrete execution of the pool/rounding scenario: the recorded allocation
total for `model-x` is `round(0.006, 2) = 0.01`, and the pool ends at 0. -/
theorem cxView_eq :
    (run_area_allocation [cxLine] cxCBL cxVols).map
      (fun st => (sumRecorded "model-x" st.lines, st.pool "model-x"))
    = some (1 / 100, 0) := by
  repeat
    first
      | simp [run_area_allocation, buildAreaCompats, seedPool, priorityLevels,
          processPriorities, processModels, groupByModel, keysAux, distributeModel,
          findLine, updateLine, ProductionLine.add_model, mkAssignment,
          get_compatibilities_by_line, cxCBL, cxVols, cxCompats, cxLine,
          Function.update_apply, List.insertionSort, List.orderedInsert, round2, round_eq,
          List.find?, sumRecorded, lineSumFor]
      | norm_num [Function.update_apply, mkAssignment, round2, round_eq,
          sumRecorded, lineSumFor]

/-- The pool/rounding scenario pass returns normally. -/
theorem cxRun_isSome : (run_area_allocation [cxLine] cxCBL cxVols).isSome = true := by
  cases hr : run_area_allocation [cxLine] cxCBL cxVols with
  | none =>
    have h := cxView_eq
    rw [hr] at h
    exact absurd h (by simp)
  | some st => rfl

/-- The pool/rounding scenario pass ends in the state `cxSt`. -/
theorem cxRun_eq : run_area_allocation [cxLine] cxCBL cxVols = some cxSt := by
  show cxRun = some cxSt
  have h : cxRun.isSome = true := cxRun_isSome
  unfold cxSt
  cases hr : cxRun with
  | none => rw [hr] at h; exact absurd h (by simp)
  | some st => rfl

/-- A concrete successful `add_model` call on a fresh line: 10 units of a
300 s / 85 percent model are granted in full. -/
theorem addModelFresh_eq :
    freshLine.add_model "m1" "M1" 10 300 85 1 = some (10, freshAfter) := by
  norm_num [ProductionLine.add_model, freshLine, freshAfter, min_def]

/-- C1: for every production line, after the complete allocation pass for an
(area, year), `timeUsedDaily` is at most `timeAvailableDaily`; the bound is
maintained by every single `add_model` call, which adds
`allocatedUnits * adjustedCycleTime ≤ availableTime` to the used time and is
never restored by clamping afterwards.  Stated as (a) single-call
preservation and (b) the invariant for every line after a whole-area pass. -/
theorem claim_C1_capacity_invariant :
    (∀ (l : ProductionLine) (mid mname : String) (d ct eff : ℚ) (p : Int)
        (r : ℚ) (l' : ProductionLine),
        l.timeUsedDaily ≤ l.timeAvailableDaily →
        l.add_model mid mname d ct eff p = some (r, l') →
        l'.timeUsedDaily ≤ l'.timeAvailableDaily)
    ∧
    (∀ (areaLines : List ProductionLine) (cbl : String → List Compat)
        (vols : String → Option ℚ) (st : AllocState),
        (∀ l ∈ areaLines, l.timeUsedDaily ≤ l.timeAvailableDaily) →
        run_area_allocation areaLines cbl vols = some st →
        ∀ l ∈ st.lines, l.timeUsedDaily ≤ l.timeAvailableDaily) := by
  constructor
  · intro l mid mname d ct eff p r l' hinv h
    exact add_model_capacity hinv h
  · intro areaLines cbl vols st hinit hrun
    refine run_area_allocation_pres
      (P := fun s => ∀ l ∈ s.lines, l.timeUsedDaily ≤ l.timeAvailableDaily)
      ?_ areaLines cbl vols st hrun hinit
    intro m c st0 r line line' hfind hadd hP
    intro x hx
    rcases mem_updateLine hx with hx' | hx'
    · have hline : line ∈ st0.lines := by
        unfold findLine at hfind
        exact List.mem_of_find?_eq_some hfind
      exact hx' ▸ add_model_capacity (hP line hline) hadd
    · exact hP x hx'

/-- C1 witness: a concrete in-bounds `add_model` call keeps the concrete line
within its capacity. -/
theorem claim_C1_capacity_invariant_witness :
    freshAfter.timeUsedDaily ≤ freshAfter.timeAvailableDaily :=
  claim_C1_capacity_invariant.1 freshLine "m1" "M1" 10 300 85 1 10 freshAfter
    (by norm_num [freshLine]) addModelFresh_eq

/-- C2: zero demand and zero capacity degrade to 0 units allocated, but a
call with efficiency 0 raises (`ZeroDivisionError` from
`cycle_time / (efficiency / 100.0)`, before any guard) instead of returning
0 units: the first conjunct shows the modelled exception (`none`), refuting
the no-crash part of the claim; the code contradicts the documented
`efficiency (0-100)` range and the spec's failure semantics. -/
theorem claim_C2_zero_efficiency_raises :
    freshLine.add_model "m1" "M1" 10 300 0 1 = none ∧
    freshLine.add_model "m1" "M1" 0 300 85 1 = some (0, freshLine) ∧
    zeroCapLine.add_model "m1" "M1" 10 300 85 1 = some (0, zeroCapLine) := by
  refine ⟨?_, ?_, ?_⟩ <;>
    norm_num [ProductionLine.add_model, freshLine, zeroCapLine, min_def]

/-- C3 counterexample: a call with efficiency 85 > 0 but cycle time 0 on a
line with available time raises (`ZeroDivisionError` from
`available_time / adjusted_cycle_time`) rather than returning an allocation,
so the claim as stated fails at this input. -/
theorem claim_C3_cx_zero_cycletime_raises :
    freshLine.add_model "m1" "M1" 10 0 85 1 = none := by
  norm_num [ProductionLine.add_model, freshLine]

/-- C3 (amended with `cycleTime ≠ 0`): with efficiency > 0 and a nonzero
cycle time, the allocation primitive returns 0 with the line untouched when
`availableTime ≤ 0` or when `min(availableTime / adjustedCycleTime,
requestedUnits) ≤ 0`; otherwise it returns that minimum, appends exactly one
assignment and adds `allocatedUnits * adjustedCycleTime` to `timeUsedDaily`;
and every newly recorded assignment satisfies
`0 ≤ allocatedUnitsDaily ≤ demandUnitsDaily`. -/
theorem claim_C3_allocation_primitive (l : ProductionLine) (mid mname : String)
    (d ct eff : ℚ) (p : Int) (heff : 0 < eff) (hct : ct ≠ 0) :
    (l.timeAvailableDaily - l.timeUsedDaily ≤ 0 →
      l.add_model mid mname d ct eff p = some (0, l)) ∧
    (0 < l.timeAvailableDaily - l.timeUsedDaily →
      min ((l.timeAvailableDaily - l.timeUsedDaily) / (ct / (eff / 100))) d ≤ 0 →
      l.add_model mid mname d ct eff p = some (0, l)) ∧
    (0 < l.timeAvailableDaily - l.timeUsedDaily →
      0 < min ((l.timeAvailableDaily - l.timeUsedDaily) / (ct / (eff / 100))) d →
      l.add_model mid mname d ct eff p =
        some (min ((l.timeAvailableDaily - l.timeUsedDaily) / (ct / (eff / 100))) d,
          { l with
            timeUsedDaily := l.timeUsedDaily +
              min ((l.timeAvailableDaily - l.timeUsedDaily) / (ct / (eff / 100))) d *
                (ct / (eff / 100))
            assignments := l.assignments ++
              [mkAssignment mid mname
                (min ((l.timeAvailableDaily - l.timeUsedDaily) / (ct / (eff / 100))) d)
                d ct eff p] })) ∧
    (∀ (r : ℚ) (l' : ProductionLine),
      l.add_model mid mname d ct eff p = some (r, l') →
      ∀ a ∈ l'.assignments, a ∈ l.assignments ∨
        (0 ≤ a.allocatedUnitsDaily ∧ a.allocatedUnitsDaily ≤ a.demandUnitsDaily)) := by
  have heff' : eff / 100 ≠ 0 := ne_of_gt (by positivity)
  have hadj : ct / (eff / 100) ≠ 0 := div_ne_zero hct heff'
  refine ⟨?_, ?_, ?_, ?_⟩
  · intro hav
    simp only [ProductionLine.add_model, if_neg heff', if_pos hav]
  · intro hav halloc
    simp only [ProductionLine.add_model, if_neg heff', if_neg (not_le.mpr hav),
      if_neg hadj, if_pos halloc]
  · intro hav halloc
    simp only [ProductionLine.add_model, if_neg heff', if_neg (not_le.mpr hav),
      if_neg hadj, if_neg (not_le.mpr halloc)]
  · intro r l' h a ha
    rcases add_model_cases l mid mname d ct eff p r l' h with ⟨_, hl⟩ | ⟨hrpos, hrd, _, _, hl⟩
    · exact Or.inl (hl ▸ ha)
    · rw [hl] at ha
      simp only [List.mem_append, List.mem_singleton] at ha
      rcases ha with ha | ha
      · exact Or.inl ha
      · refine Or.inr ?_
        rw [ha]
        unfold mkAssignment
        exact ⟨round2_nonneg (le_of_lt hrpos), round2_mono hrd⟩

/-- C3 witness: a call on a line whose capacity is exhausted returns 0 and
records nothing. -/
theorem claim_C3_allocation_primitive_witness :
    fullLine.add_model "m1" "M1" 10 300 85 1 = some (0, fullLine) :=
  (claim_C3_allocation_primitive fullLine "m1" "M1" 10 300 85 1
    (by norm_num) (by norm_num)).1 (by norm_num [fullLine])

/-- C5: in the specified end-to-end scenario, model C receives a priority-1
assignment on line SMT-1 (41.6 units) and a priority-2 assignment on line
SMT-2 (6.4 units) in the same run, and model B obtains its full priority-1
allocation of 60 units on SMT-2 (model A, fully served on SMT-1 in the same
tier, never touches SMT-2, so B's priority-1 request is served before any
capacity on SMT-2 is consumed by A). -/
theorem claim_C5_priority_distribution :
    (run_area_allocation [testLine1, testLine2] testCBL testVols).map
      (fun st => st.lines.map (fun l =>
        (l.id, l.assignments.map (fun a => (a.modelId, a.priority, a.allocatedUnitsDaily)))))
    = some
      [ ("line-smt-1", [("model-a", 1, 40), ("model-c", 1, 208 / 5)])
      , ("line-smt-2", [("model-b", 1, 60), ("model-c", 2, 32 / 5)]) ] :=
  testView_eq

/-- Appending one assignment changes the per-line recorded total for model
`m` by its `allocatedUnitsDaily` exactly when the assignment is for `m`. -/
theorem lineSumFor_append (m : String) (l : ProductionLine) (a : ModelAssignment)
    (la : ProductionLine)
    (hla : la.assignments = l.assignments ++ [a]) :
    lineSumFor m la = lineSumFor m l + (if a.modelId = m then a.allocatedUnitsDaily else 0) := by
  unfold lineSumFor
  rw [hla, List.filter_append]
  by_cases hm : a.modelId = m
  · simp [hm]
  · simp [hm]

/-- Appending one assignment raises the per-line count for model `m` by one
exactly when the assignment is for `m`. -/
theorem lineCntFor_append (m : String) (l : ProductionLine) (a : ModelAssignment)
    (la : ProductionLine)
    (hla : la.assignments = l.assignments ++ [a]) :
    lineCntFor m la = lineCntFor m l + (if a.modelId = m then 1 else 0) := by
  unfold lineCntFor
  rw [hla, List.filter_append]
  by_cases hm : a.modelId = m
  · simp [hm]
  · simp [hm]

/-- Lines with no assignments contribute nothing to the recorded totals. -/
theorem sumRecorded_of_fresh (m : String) (lines : List ProductionLine)
    (h : ∀ l ∈ lines, l.assignments = []) :
    sumRecorded m lines = 0 ∧ assignCount m lines = 0 := by
  constructor
  · apply List.sum_eq_zero
    intro x hx
    rcases List.mem_map.mp hx with ⟨l, hl, hlx⟩
    rw [← hlx]
    simp [lineSumFor, h l hl]
  · apply List.sum_eq_zero
    intro x hx
    rcases List.mem_map.mp hx with ⟨l, hl, hlx⟩
    rw [← hlx]
    simp [lineCntFor, h l hl]

/-- C4 (amended): the pool entry is seeded at full daily demand exactly for
models with a compatibility record in the area; after a pass that returns,
every pool entry is still nonnegative, and the recorded assignment totals can
exceed the seeded demand only by the `round(_, 2)` recording error, at most
1/200 of a unit per recorded assignment. -/
theorem claim_C4_pool_invariant (areaLines : List ProductionLine)
    (cbl : String → List Compat) (vols : String → Option ℚ)
    (hnodup : (areaLines.map (fun l => l.id)).Nodup)
    (hfresh : ∀ l ∈ areaLines, l.assignments = [])
    (hvols : ∀ m, 0 ≤ (vols m).getD 0) :
    (∀ m, (buildAreaCompats areaLines cbl vols).any (fun c => c.modelId = m) = true →
      seedPool (buildAreaCompats areaLines cbl vols) vols m = (vols m).getD 0) ∧
    (∀ m, (buildAreaCompats areaLines cbl vols).any (fun c => c.modelId = m) = false →
      seedPool (buildAreaCompats areaLines cbl vols) vols m = 0) ∧
    (∀ st, run_area_allocation areaLines cbl vols = some st → ∀ m,
      0 ≤ st.pool m ∧
      sumRecorded m st.lines + st.pool m ≤
        seedPool (buildAreaCompats areaLines cbl vols) vols m +
          assignCount m st.lines / 200) := by
  set seed := seedPool (buildAreaCompats areaLines cbl vols) vols with hseed
  refine ⟨?_, ?_, ?_⟩
  · intro m hm
    simp [hseed, seedPool, hm]
  · intro m hm
    simp [hseed, seedPool, hm]
  · intro st hrun m
    have hmain : (st.lines.map (fun l => l.id)).Nodup ∧ ∀ m,
        0 ≤ st.pool m ∧
        sumRecorded m st.lines + st.pool m ≤ seed m + assignCount m st.lines / 200 := by
      refine run_area_allocation_pres
        (P := fun s => (s.lines.map (fun l => l.id)).Nodup ∧ ∀ m,
          0 ≤ s.pool m ∧
          sumRecorded m s.lines + s.pool m ≤ seed m + assignCount m s.lines / 200)
        ?_ areaLines cbl vols st hrun ?_
      · -- the allocation step preserves the invariant
        intro m' c st0 r line line' hfind hadd hP
        dsimp only
        refine ⟨?_, ?_⟩
        · rw [updateLine_map_id]
          exact hP.1
        · intro m0
          rcases add_model_cases line m' c.modelName (st0.pool m') c.cycleTime
              c.efficiency c.priority r line' hadd with
            ⟨hr0, hl'⟩ | ⟨hrpos, hrd, _, _, hl'⟩
          · -- nothing allocated: the state is unchanged
            subst hl'
            have hsum2 : sumRecorded m0 (updateLine st0.lines line') + lineSumFor m0 line'
                = sumRecorded m0 st0.lines + lineSumFor m0 line' := by
              simpa [sumRecorded] using
                sum_updateLine (lineSumFor m0) st0.lines c.lineId line' line' hP.1 hfind rfl
            have hcnt2 : assignCount m0 (updateLine st0.lines line') + lineCntFor m0 line'
                = assignCount m0 st0.lines + lineCntFor m0 line' := by
              simpa [assignCount] using
                sum_updateLine (lineCntFor m0) st0.lines c.lineId line' line' hP.1 hfind rfl
            have hsum3 : sumRecorded m0 (updateLine st0.lines line')
                = sumRecorded m0 st0.lines := by linarith
            have hcnt3 : assignCount m0 (updateLine st0.lines line')
                = assignCount m0 st0.lines := by linarith
            rw [hr0, if_neg (lt_irrefl (0 : ℚ)), hsum3, hcnt3]
            exact hP.2 m0
          · -- a positive allocation for model m0 = m' on the found line
            have hla : line'.assignments = line.assignments ++
                [mkAssignment m' c.modelName r (st0.pool m') c.cycleTime c.efficiency
                  c.priority] := by rw [hl']
            have hsum2 : sumRecorded m0 (updateLine st0.lines line') + lineSumFor m0 line
                = sumRecorded m0 st0.lines + lineSumFor m0 line' := by
              simpa [sumRecorded] using
                sum_updateLine (lineSumFor m0) st0.lines c.lineId line line' hP.1 hfind
                  (by rw [hl'])
            have hcnt2 : assignCount m0 (updateLine st0.lines line') + lineCntFor m0 line
                = assignCount m0 st0.lines + lineCntFor m0 line' := by
              simpa [assignCount] using
                sum_updateLine (lineCntFor m0) st0.lines c.lineId line line' hP.1 hfind
                  (by rw [hl'])
            have hlf := lineSumFor_append m0 line _ line' hla
            have hlc := lineCntFor_append m0 line _ line' hla
            simp only [mkAssignment] at hlf hlc
            rw [if_pos hrpos]
            by_cases hm : m' = m0
            · subst hm
              rw [if_pos rfl] at hlf hlc
              have hpool : Function.update st0.pool m' (st0.pool m' - r) m'
                  = st0.pool m' - r := Function.update_same m' (st0.pool m' - r) st0.pool
              rw [hpool]
              have hP' := hP.2 m'
              have hr2 := round2_le r
              refine ⟨by linarith [hP'.1], ?_⟩
              have hsum4 : sumRecorded m' (updateLine st0.lines line')
                  = sumRecorded m' st0.lines + round2 r := by linarith
              have hcnt4 : assignCount m' (updateLine st0.lines line')
                  = assignCount m' st0.lines + 1 := by linarith
              rw [hsum4, hcnt4]
              have := hP'.2
              linarith
            · rw [if_neg hm] at hlf hlc
              have hpool : Function.update st0.pool m' (st0.pool m' - r) m0
                  = st0.pool m0 :=
                Function.update_noteq (fun hc => hm hc.symm) (st0.pool m' - r) st0.pool
              rw [hpool]
              have hsum4 : sumRecorded m0 (updateLine st0.lines line')
                  = sumRecorded m0 st0.lines := by linarith
              have hcnt4 : assignCount m0 (updateLine st0.lines line')
                  = assignCount m0 st0.lines := by linarith
              rw [hsum4, hcnt4]
              exact hP.2 m0
      · -- the freshly seeded state satisfies the invariant
        refine ⟨hnodup, ?_⟩
        intro m0
        have hz := sumRecorded_of_fresh m0 areaLines hfresh
        refine ⟨?_, ?_⟩
        · simp only [hseed, seedPool]
          split
          · exact hvols m0
          · exact le_refl 0
        · rw [hz.1, hz.2]
          simp
    exact ⟨(hmain.2 m).1, (hmain.2 m).2⟩

/-- C4 counterexample: with a daily demand of 0.006 units and ample capacity,
the single recorded assignment stores `round(0.006, 2) = 0.01` units, so the
sum of the recorded `allocatedUnitsDaily` (0.01) exceeds the model's full
daily demand (0.006), refuting the claim's final inequality as stated. -/
theorem claim_C4_cx_rounding_exceeds_demand :
    (run_area_allocation [cxLine] cxCBL cxVols).map
      (fun st => sumRecorded "model-x" st.lines) = some (1 / 100) ∧
    (3 : ℚ) / 500 < 1 / 100 := by
  have h := cxView_eq
  rw [cxRun_eq] at h
  simp only [Option.map_some'] at h
  have h1 : sumRecorded "model-x" cxSt.lines = 1 / 100 := by
    have := congrArg Prod.fst (Option.some.inj h)
    simpa using this
  constructor
  · rw [cxRun_eq]
    simp [h1]
  · norm_num

/-- C4 witness: the amended invariant instantiated on the concrete one-line
scenario for its model. -/
theorem claim_C4_pool_invariant_witness :
    0 ≤ cxSt.pool "model-x" ∧
    sumRecorded "model-x" cxSt.lines + cxSt.pool "model-x" ≤
      seedPool (buildAreaCompats [cxLine] cxCBL cxVols) cxVols "model-x" +
        assignCount "model-x" cxSt.lines / 200 :=
  (claim_C4_pool_invariant [cxLine] cxCBL cxVols (by simp)
    (by intro l hl; simp only [List.mem_singleton] at hl; rw [hl]; rfl)
    (by intro m; unfold cxVols; split <;> norm_num)).2.2 cxSt cxRun_eq "model-x"

/-- The running fold behind Python `max(..., key=lambda x: x[1])`: the result
is the start or a member, dominates the start, and dominates every member. -/
theorem foldl_max_spec (xs : List (String × ℚ)) :
    ∀ x : String × ℚ,
      ((xs.foldl (fun best y => if best.2 < y.2 then y else best) x) = x ∨
        (xs.foldl (fun best y => if best.2 < y.2 then y else best) x) ∈ xs) ∧
      x.2 ≤ (xs.foldl (fun best y => if best.2 < y.2 then y else best) x).2 ∧
      ∀ q ∈ xs, q.2 ≤ (xs.foldl (fun best y => if best.2 < y.2 then y else best) x).2 := by
  induction xs with
  | nil => intro x; simp
  | cons y ys ih =>
    intro x
    rw [List.foldl_cons]
    rcases ih (if x.2 < y.2 then y else x) with ⟨hmem, hge, hall⟩
    have hxy : x.2 ≤ (if x.2 < y.2 then y else x).2 := by
      split
      · rename_i hlt; exact le_of_lt hlt
      · exact le_refl _
    have hyy : y.2 ≤ (if x.2 < y.2 then y else x).2 := by
      split
      · exact le_refl _
      · rename_i hlt; exact le_of_not_lt hlt
    refine ⟨?_, le_trans hxy hge, ?_⟩
    · rcases hmem with hmem | hmem
      · rw [hmem]
        split
        · exact Or.inr (List.mem_cons_self _ _)
        · exact Or.inl rfl
      · exact Or.inr (List.mem_cons_of_mem _ hmem)
    · intro q hq
      rcases List.mem_cons.mp hq with hq | hq
      · rw [hq]; exact le_trans hyy hge
      · exact hall q hq

/-- An empty list has no Python `max`; a nonempty one always has one. -/
theorem maxByValue_none_iff (l : List (String × ℚ)) :
    maxByValue l = none ↔ l = [] := by
  cases l with
  | nil => simp [maxByValue]
  | cons x xs => simp [maxByValue]

/-- Python `max(..., key=lambda x: x[1])` returns a member whose value
dominates every member. -/
theorem maxByValue_spec (l : List (String × ℚ)) (p : String × ℚ)
    (h : maxByValue l = some p) : p ∈ l ∧ ∀ q ∈ l, q.2 ≤ p.2 := by
  cases l with
  | nil => exact absurd h (by simp [maxByValue])
  | cons x xs =>
    unfold maxByValue at h
    have hp := Option.some.inj h
    rcases foldl_max_spec xs x with ⟨hmem, hge, hall⟩
    rw [hp] at hmem hge hall
    constructor
    · rcases hmem with hmem | hmem
      · rw [hmem]; exact List.mem_cons_self _ _
      · exact List.mem_cons_of_mem _ hmem
    · intro q hq
      rcases List.mem_cons.mp hq with hq | hq
      · rw [hq]; exact hge
      · exact hall q hq

/-- An all-empty tracker produces no `areas_with_unfulfilled` entries. -/
theorem areasWithUnfulfilled_nil (tracker : List (String × List (String × ℚ)))
    (h : ∀ p ∈ tracker, p.2 = []) : areasWithUnfulfilled tracker = [] := by
  unfold areasWithUnfulfilled
  rw [List.filter_eq_nil_iff.mpr, List.map_nil]
  intro p hp
  simp [h p hp]

/-- C8: the system constraint is selected by strict priority.  If some area
has a nonzero total of unfulfilled units (tracker entries are the pool values
above the 0.01 threshold), the area with the largest total is selected with
reason `"unfulfilled_demand"`; otherwise, if the highest average utilization
reaches 100, that area is selected with reason `"highest_utilization"`;
otherwise there is no system constraint. -/
theorem claim_C8_system_constraint (tracker : List (String × List (String × ℚ)))
    (utils : List (String × ℚ))
    (hpos : ∀ p ∈ tracker, ∀ q ∈ p.2, 1 / 100 < q.2) :
    ((∃ p ∈ tracker, p.2 ≠ []) →
      ∃ a t, (a, t) ∈ areasWithUnfulfilled tracker ∧ 0 < t ∧
        (∀ q ∈ areasWithUnfulfilled tracker, q.2 ≤ t) ∧
        selectSystemConstraint tracker utils = some (a, "unfulfilled_demand")) ∧
    ((∀ p ∈ tracker, p.2 = []) →
      ∀ b u, (b, u) ∈ utils → 100 ≤ u →
      ∃ a v, (a, v) ∈ utils ∧ 100 ≤ v ∧ (∀ q ∈ utils, q.2 ≤ v) ∧
        selectSystemConstraint tracker utils = some (a, "highest_utilization")) ∧
    ((∀ p ∈ tracker, p.2 = []) → (∀ q ∈ utils, q.2 < 100) →
      selectSystemConstraint tracker utils = none) := by
  refine ⟨?_, ?_, ?_⟩
  · rintro ⟨p, hp, hpne⟩
    have hawu : areasWithUnfulfilled tracker ≠ [] := by
      intro hnil
      have hpf : p ∈ tracker.filter (fun p => !p.2.isEmpty) :=
        List.mem_filter.mpr ⟨hp, by simp [hpne]⟩
      unfold areasWithUnfulfilled at hnil
      rw [List.map_eq_nil_iff] at hnil
      rw [hnil] at hpf
      exact absurd hpf (List.not_mem_nil p)
    cases hmax : maxByValue (areasWithUnfulfilled tracker) with
    | none => exact absurd ((maxByValue_none_iff _).mp hmax) hawu
    | some ap =>
      rcases maxByValue_spec _ ap hmax with ⟨hmem, hdom⟩
      refine ⟨ap.1, ap.2, hmem, ?_, hdom, ?_⟩
      · unfold areasWithUnfulfilled at hmem
        rcases List.mem_map.mp hmem with ⟨q, hqf, hq⟩
        rcases List.mem_filter.mp hqf with ⟨hqt, hqne⟩
        have hsum : 0 < (q.2.map (fun e => e.2)).sum := by
          apply List.sum_pos
          · intro x hx
            rcases List.mem_map.mp hx with ⟨e, he, hex⟩
            have := hpos q hqt e he
            rw [← hex]
            linarith
          · simp only [ne_eq, List.map_eq_nil_iff]
            intro hq2
            rw [hq2] at hqne
            simp at hqne
        have : ap.2 = (q.2.map (fun e => e.2)).sum := by
          rw [← hq]
        rw [this]
        exact hsum
      · unfold selectSystemConstraint
        rw [hmax]
  · intro hall b u hbu hu
    have hawu : areasWithUnfulfilled tracker = [] := areasWithUnfulfilled_nil tracker hall
    have hmaxu : maxByValue utils ≠ none := by
      simp only [ne_eq, maxByValue_none_iff]
      intro hnil
      rw [hnil] at hbu
      exact absurd hbu (List.not_mem_nil _)
    cases hmax : maxByValue utils with
    | none => exact absurd hmax hmaxu
    | some av =>
      rcases maxByValue_spec _ av hmax with ⟨hmem, hdom⟩
      have h100 : 100 ≤ av.2 := le_trans hu (hdom (b, u) hbu)
      refine ⟨av.1, av.2, hmem, h100, hdom, ?_⟩
      unfold selectSystemConstraint
      rw [hawu, show maxByValue ([] : List (String × ℚ)) = none from rfl, hmax]
      dsimp only
      rw [if_pos h100]
  · intro hall hlt
    have hawu : areasWithUnfulfilled tracker = [] := areasWithUnfulfilled_nil tracker hall
    unfold selectSystemConstraint
    rw [hawu, show maxByValue ([] : List (String × ℚ)) = none from rfl]
    cases hmax : maxByValue utils with
    | none => rfl
    | some av =>
      rcases maxByValue_spec _ av hmax with ⟨hmem, _⟩
      dsimp only
      rw [if_neg (not_le.mpr (hlt av hmem))]

/-- C8 witness: one area with 5 unfulfilled units is selected as the system
constraint with reason `"unfulfilled_demand"`. -/
theorem claim_C8_system_constraint_witness :
    ∃ a t, (a, t) ∈ areasWithUnfulfilled c8Tracker ∧ 0 < t ∧
      (∀ q ∈ areasWithUnfulfilled c8Tracker, q.2 ≤ t) ∧
      selectSystemConstraint c8Tracker c8Utils = some (a, "unfulfilled_demand") :=
  (claim_C8_system_constraint c8Tracker c8Utils
    (by intro p hp q hq; simp only [c8Tracker, List.mem_singleton] at hp
        rw [hp] at hq; simp only [List.mem_singleton] at hq; rw [hq]; norm_num)).1
    ⟨("SMT", [("model-x", 5)]), by simp [c8Tracker], by simp⟩

/-- C9: for every input and every nonnegative computed changeover time, the
shared result builder reports `changeover_impact_percent = 0`: production
time is defined as available minus changeover (floored at 0) and the total
adds the changeover back, so utilization with changeover is never below
production-only utilization and the clamp to 0 always applies. -/
theorem claim_C9_changeover_impact_zero (methodId : String) (input : ChangeoverInput)
    (tuc ect : ℚ) (transitions : List TransitionAnalysis) (warnings : List String)
    (h : 0 ≤ tuc) :
    (buildResult methodId input tuc ect transitions warnings).changeover_impact_percent
      = 0 := by
  unfold buildResult
  dsimp only
  split_ifs with h1 h2 h3
  all_goals try exact round2_zero
  · exfalso
    rw [zero_add, zero_div, zero_mul] at h3
    have h0 : 0 ≤ tuc / input.time_available_daily * 100 := by positivity
    linarith
  · exfalso
    rename_i h3
    have he : input.time_available_daily - tuc + tuc = input.time_available_daily := by
      ring
    rw [he] at h3
    have h4 : (input.time_available_daily - tuc) / input.time_available_daily
        ≤ input.time_available_daily / input.time_available_daily :=
      (div_le_div_iff_of_pos_right h1).mpr (by linarith)
    have h5 := mul_le_mul_of_nonneg_right h4 (by norm_num : (0 : ℚ) ≤ 100)
    linarith
  · exfalso
    rename_i h2
    exact lt_irrefl 0 h2

/-- C9 witness: a concrete build with changeover time 100 s on 28,800 s of
available time reports zero changeover impact. -/
theorem claim_C9_changeover_impact_zero_witness :
    (buildResult "probability_weighted" c6Input 100 50 [] []).changeover_impact_percent
      = 0 :=
  claim_C9_changeover_impact_zero "probability_weighted" c6Input 100 50 [] []
    (by norm_num)

/-- C7: `registry.calculate` fails with the unknown-method error exactly when
the id is unregistered, and with the not-implemented error exactly when the
registered method's `implemented` flag is false; and
`calculate_with_fallback` returns normally for every input whenever the
fallback id names a registered, implemented method whose own calculation
never raises, regardless of what the preferred id does. -/
theorem claim_C7_registry_errors (r : List Method) (method_id : String)
    (input : ChangeoverInput) :
    ((registry_calculate r method_id input = .error (.unknownMethod method_id)) ↔
      getMethod r method_id = none) ∧
    ((registry_calculate r method_id input = .error (.notImplemented method_id)) ↔
      ∃ m, getMethod r method_id = some m ∧ m.implemented = false) ∧
    (∀ fb m, getMethod r fb = some m → m.implemented = true →
      (∀ i, (m.calcFn i).isSome = true) →
      (calculate_with_fallback r method_id input fb).isOk = true) := by
  refine ⟨?_, ?_, ?_⟩
  · unfold registry_calculate
    cases hget : getMethod r method_id with
    | none => simp
    | some m =>
      dsimp only
      by_cases himp : m.implemented = false
      · rw [if_pos himp]
        simp
      · rw [if_neg himp]
        cases m.calcFn input with
        | some res => simp
        | none => simp
  · unfold registry_calculate
    cases hget : getMethod r method_id with
    | none => simp
    | some m =>
      dsimp only
      by_cases himp : m.implemented = false
      · rw [if_pos himp]
        simp [himp]
      · rw [if_neg himp]
        cases m.calcFn input with
        | some res => simp [himp]
        | none => simp [himp]
  · intro fb m hget himp hcalc
    unfold calculate_with_fallback
    cases registry_calculate r method_id input with
    | ok res => rfl
    | error e =>
      unfold registry_calculate
      rw [hget]
      dsimp only
      rw [if_neg (by simp [himp])]
      rcases Option.isSome_iff_exists.mp (hcalc input) with ⟨res, hres⟩
      rw [hres]
      rfl

/-- C7 witness: with the default registry, asking for the unregistered
`tsp_optimal` id but falling back to `simple_average` returns normally. -/
theorem claim_C7_registry_errors_witness :
    (calculate_with_fallback defaultRegistry "tsp_optimal" c6Input
      "simple_average").isOk = true :=
  (claim_C7_registry_errors defaultRegistry "tsp_optimal" c6Input).2.2
    "simple_average" simpleAverageMethod rfl rfl (fun _ => rfl)

/-- C10: the default module-level registry registers exactly the ids
`probability_weighted`, `simple_average` and `worst_case`, all implemented;
`tsp_optimal` is not registered, so `registry.calculate` with that id raises
the unknown-method error, not the not-implemented error. -/
theorem claim_C10_default_registry (input : ChangeoverInput) :
    defaultRegistry.map (fun m => m.id)
      = ["probability_weighted", "simple_average", "worst_case"] ∧
    (∀ m ∈ defaultRegistry, m.implemented = true) ∧
    getMethod defaultRegistry "tsp_optimal" = none ∧
    registry_calculate defaultRegistry "tsp_optimal" input
      = .error (.unknownMethod "tsp_optimal") ∧
    registry_calculate defaultRegistry "tsp_optimal" input
      ≠ .error (.notImplemented "tsp_optimal") := by
  have hget : getMethod defaultRegistry "tsp_optimal" = none := by
    unfold getMethod defaultRegistry
    simp [probabilityWeightedMethod, simpleAverageMethod, worstCaseMethod]
  have hcalc : registry_calculate defaultRegistry "tsp_optimal" input
      = .error (.unknownMethod "tsp_optimal") := by
    unfold registry_calculate
    rw [hget]
  refine ⟨?_, ?_, hget, hcalc, ?_⟩
  · rfl
  · intro m hm
    unfold defaultRegistry at hm
    rcases List.mem_cons.mp hm with h | hm
    · rw [h]; rfl
    rcases List.mem_cons.mp hm with h | hm
    · rw [h]; rfl
    rcases List.mem_cons.mp hm with h | hm
    · rw [h]; rfl
    · exact absurd hm (List.not_mem_nil m)
  · rw [hcalc]
    simp

/-- The expected-changeover field of a built result is the rounded argument. -/
theorem buildResult_expected (methodId : String) (input : ChangeoverInput)
    (tuc ect : ℚ) (transitions : List TransitionAnalysis) (warnings : List String) :
    (buildResult methodId input tuc ect transitions warnings).expected_changeover_time
      = round2 ect := rfl

/-- The warnings of a built result extend the warnings passed in. -/
theorem buildResult_warnings_mem (methodId : String) (input : ChangeoverInput)
    (tuc ect : ℚ) (transitions : List TransitionAnalysis) (warnings : List String)
    (w : String) (hw : w ∈ warnings) :
    w ∈ (buildResult methodId input tuc ect transitions warnings).warnings := by
  show w ∈ (if input.time_available_daily - tuc < 0 then
    warnings ++ ["Changeover time exceeds available time"] else warnings)
  split
  · exact List.mem_append_left _ hw
  · exact hw

/-- Updates for other keys do not change a proportions lookup. -/
theorem proportions_foldl_notmem (total : ℚ) :
    ∀ (xs : List ModelInfo) (f : String → ℚ) (mid : String),
      mid ∉ xs.map (fun m => m.model_id) →
      (xs.foldl (fun f m => Function.update f m.model_id
        (m.allocated_units_daily / total)) f) mid = f mid := by
  intro xs
  induction xs with
  | nil => intro f mid _; rfl
  | cons x xs ih =>
    intro f mid h
    rw [List.map_cons, List.mem_cons] at h
    push_neg at h
    rw [List.foldl_cons, ih _ mid h.2, Function.update_noteq h.1]

/-- With pairwise-distinct ids, the `proportions` dict maps each model's id
to its allocated share of the total. -/
theorem proportionsOf_lookup (total : ℚ) :
    ∀ (models : List ModelInfo),
      (models.map (fun m => m.model_id)).Nodup →
      ∀ m ∈ models, proportionsOf models total m.model_id
        = m.allocated_units_daily / total := by
  have main : ∀ (models : List ModelInfo) (f : String → ℚ),
      (models.map (fun m => m.model_id)).Nodup →
      ∀ m ∈ models, (models.foldl (fun f mi => Function.update f mi.model_id
        (mi.allocated_units_daily / total)) f) m.model_id
        = m.allocated_units_daily / total := by
    intro models
    induction models with
    | nil => intro f _ m hm; exact absurd hm (List.not_mem_nil m)
    | cons x xs ih =>
      intro f hnd m hm
      rw [List.map_cons, List.nodup_cons] at hnd
      rw [List.foldl_cons]
      rcases List.mem_cons.mp hm with hm | hm
      · rw [hm]
        rw [proportions_foldl_notmem total xs _ x.model_id hnd.1,
          Function.update_same]
      · exact ih _ hnd.2 m hm
  intro models hnd m hm
  exact main models _ hnd m hm

/-- Both components of an ordered pair come from the model list. -/
theorem orderedPairs_mem {models : List ModelInfo} {q : ModelInfo × ModelInfo}
    (h : q ∈ orderedPairs models) : q.1 ∈ models ∧ q.2 ∈ models := by
  unfold orderedPairs at h
  rcases List.mem_flatMap.mp h with ⟨fm, hfm, hq⟩
  rcases List.mem_map.mp hq with ⟨tm, htm, hqe⟩
  rw [← hqe]
  exact ⟨hfm, (List.mem_filter.mp htm).1⟩

/-- C6 (amended): for every input with at least 2 models carrying
pairwise-distinct ids and positive total allocated units, the
probability-weighted strategy records an expected changeover per event of
`W / (1 - HHI)` minutes converted to seconds (×60) and rounded to two
decimals by the result builder, where `W = Σ_{i≠j} p_i p_j matrix[i,j]` and
`HHI = Σ p_i²` over allocated-unit proportions; and whenever
`1 - HHI ≤ 0.01` the expected changeover time is 0 with a warning. -/
theorem claim_C6_probability_weighted (input : ChangeoverInput)
    (h2 : 2 ≤ input.models.length)
    (hnd : (input.models.map (fun m => m.model_id)).Nodup)
    (hpos : 0 < (input.models.map (fun m => m.allocated_units_daily)).sum) :
    (probability_weighted_calculate input).expected_changeover_time =
      (if 1 - specHHI input.models ≤ 1 / 100 then 0
       else round2 (specW input.models input.changeover_matrix /
         (1 - specHHI input.models) * 60)) ∧
    (1 - specHHI input.models ≤ 1 / 100 →
      "HHI >= 0.99: production dominated by single model"
        ∈ (probability_weighted_calculate input).warnings) := by
  have hhiEq :
      (((input.models.map (fun m => m.model_id)).dedup).map
        (fun i => proportionsOf input.models
          ((input.models.map (fun m => m.allocated_units_daily)).sum) i ^ 2)).sum
        = specHHI input.models := by
    rw [List.Nodup.dedup hnd, List.map_map]
    simp only [specHHI]
    apply congrArg List.sum
    apply List.map_congr_left
    intro m hm
    simp only [Function.comp]
    rw [proportionsOf_lookup _ input.models hnd m hm]
  have wEq :
      ((orderedPairs input.models).map (fun q =>
        proportionsOf input.models
            ((input.models.map (fun m => m.allocated_units_daily)).sum) q.1.model_id *
          proportionsOf input.models
            ((input.models.map (fun m => m.allocated_units_daily)).sum) q.2.model_id *
          input.changeover_matrix q.1.model_id q.2.model_id)).sum
        = specW input.models input.changeover_matrix := by
    simp only [specW]
    apply congrArg List.sum
    apply List.map_congr_left
    intro q hq
    rcases orderedPairs_mem hq with ⟨hq1, hq2⟩
    rw [proportionsOf_lookup _ input.models hnd q.1 hq1,
      proportionsOf_lookup _ input.models hnd q.2 hq2]
  have hguard1 : ¬(input.models.length < 2) := not_lt.mpr h2
  have hguard2 : ¬((input.models.map (fun m => m.allocated_units_daily)).sum ≤ 0) :=
    not_le.mpr hpos
  constructor
  · simp only [probability_weighted_calculate]
    rw [if_neg hguard1, if_neg hguard2, buildResult_expected, hhiEq, wEq]
    split_ifs with hc
    · rw [zero_mul, round2_zero]
    · rfl
  · intro hc
    simp only [probability_weighted_calculate]
    rw [if_neg hguard1, if_neg hguard2]
    apply buildResult_warnings_mem
    rw [hhiEq, if_pos hc]
    exact List.mem_singleton_self _

/-- C6 counterexample: on three models with allocated units 1, 1, 4 and a
single 1-minute transition, the exact expectation is
`W / (1 - HHI) * 60 = 10/3` seconds, but the strategy records
`round(10/3, 2) = 3.33`, so the returned field does not equal the claimed
unrounded value. -/
theorem claim_C6_cx_two_decimal_rounding :
    (probability_weighted_calculate c6Input).expected_changeover_time
      ≠ specW c6Models c6Matrix / (1 - specHHI c6Models) * 60 := by
  have h1 : (probability_weighted_calculate c6Input).expected_changeover_time
      = 333 / 100 := by
    repeat
      first
        | simp [probability_weighted_calculate, buildResult_expected, c6Input,
            c6Models, c6Matrix, proportionsOf, orderedPairs,
            Function.update_apply, round2, round_eq]
        | norm_num [Function.update_apply, round2, round_eq]
  have h2 : specW c6Models c6Matrix / (1 - specHHI c6Models) * 60 = 10 / 3 := by
    repeat
      first
        | simp [specW, specHHI, orderedPairs, c6Models, c6Matrix]
        | norm_num
  rw [h1, h2]
  norm_num

/-- C6 witness: the amended statement instantiated on the concrete input. -/
theorem claim_C6_probability_weighted_witness :
    (probability_weighted_calculate c6Input).expected_changeover_time =
      (if 1 - specHHI c6Input.models ≤ 1 / 100 then 0
       else round2 (specW c6Input.models c6Input.changeover_matrix /
         (1 - specHHI c6Input.models) * 60)) :=
  (claim_C6_probability_weighted c6Input (by norm_num [c6Input, c6Models])
    (by simp [c6Input, c6Models]) (by norm_num [c6Input, c6Models])).1
